import Mathlib

/-!
Shallow embedding of the signal-generation core of the repository
(app/services/signal_service.py, app/ml/feature_engineering.py,
app/services/ml_service.py).  Prices, volumes and all indicator values are
modelled as exact rationals; a pandas `NaN` becomes `Option.none` at the point
where the code reads a possibly-undefined cell.  Where IEEE-float division by
zero would produce `±inf`/`NaN` inside a comparison or a `min`, the embedding
carries an explicit guard reproducing the float outcome; each such guard is
commented at its site.
-/

namespace StockSignals

/-- One OHLCV record (app/models/market_data.py `MarketData`). -/
structure Bar where
  timestamp : ℕ
  open_price : ℚ
  high_price : ℚ
  low_price : ℚ
  close_price : ℚ
  volume : ℚ
deriving DecidableEq, Repr

/-- app/schemas/market_data.py `SignalTypeEnum`. -/
inductive SignalType where
  | BUY
  | SELL
  | HOLD
deriving DecidableEq, Repr

/-- `SignalTypeEnum.value` (the enum's string payload). -/
def SignalType.value : SignalType → String
  | .BUY => "BUY"
  | .SELL => "SELL"
  | .HOLD => "HOLD"

/-- `signal_type.value.lower()` as used in `_generate_reasoning`. -/
def SignalType.lowerValue : SignalType → String
  | .BUY => "buy"
  | .SELL => "sell"
  | .HOLD => "hold"

/-- Python `round(q)`: round half to even. -/
def roundHalfEven (q : ℚ) : ℤ :=
  if q - ⌊q⌋ < 1/2 then ⌊q⌋
  else if 1/2 < q - ⌊q⌋ then ⌊q⌋ + 1
  else if 2 ∣ ⌊q⌋ then ⌊q⌋ else ⌊q⌋ + 1

/-- Python `round(q, 2)`. -/
def round2 (q : ℚ) : ℚ := roundHalfEven (q * 100) / 100

/-- Python `round(q, 3)`. -/
def round3 (q : ℚ) : ℚ := roundHalfEven (q * 1000) / 1000

/-- Python `f"{q:.df}"` fixed-point formatting with `d` digits. -/
def formatFixed (d : ℕ) (q : ℚ) : String :=
  let n := roundHalfEven (q * 10 ^ d)
  let m := n.natAbs
  let fpStr := toString (m % 10 ^ d)
  (if n < 0 then "-" else "") ++ toString (m / 10 ^ d) ++ "." ++
    String.mk (List.replicate (d - fpStr.length) '0') ++ fpStr

/-- Arithmetic mean of a list (`sum(xs) / len(xs)`). -/
def listMean (xs : List ℚ) : ℚ := xs.sum / xs.length

/-- The last `n` elements: pandas `.tail(n)` / Python `xs[-n:]`. -/
def lastN (n : ℕ) (xs : List α) : List α := xs.drop (xs.length - n)

/-- Last cell of `series.rolling(w).mean()`; `none` models the NaN produced
while the window is not yet filled. -/
def rollingMeanLast (w : ℕ) (xs : List ℚ) : Option ℚ :=
  if w ≤ xs.length then some (listMean (lastN w xs)) else none

/-! ### TechnicalIndicators (app/ml/feature_engineering.py) -/

/-- `delta.where(delta > 0, 0)` for `delta = data.diff()`: per-step positive
moves; the leading NaN of `diff` fails `NaN > 0` and becomes 0. -/
def gains (xs : List ℚ) : List ℚ :=
  match xs with
  | [] => []
  | _ => 0 :: List.zipWith (fun a b => if 0 < b - a then b - a else 0) xs xs.tail

/-- `(-delta.where(delta < 0, 0))`: per-step magnitudes of negative moves. -/
def losses (xs : List ℚ) : List ℚ :=
  match xs with
  | [] => []
  | _ => 0 :: List.zipWith (fun a b => if b - a < 0 then -(b - a) else 0) xs xs.tail

/-- Last cell of `gain.rolling(window).mean()` inside `TechnicalIndicators.rsi`. -/
def avgGain (xs : List ℚ) (window : ℕ := 14) : Option ℚ :=
  rollingMeanLast window (gains xs)

/-- Last cell of `loss.rolling(window).mean()` inside `TechnicalIndicators.rsi`. -/
def avgLoss (xs : List ℚ) (window : ℕ := 14) : Option ℚ :=
  rollingMeanLast window (losses xs)

/-- Last cell of `TechnicalIndicators.rsi`. `rs = gain/loss`;
`rsi = 100 - 100/(1+rs)`.  Float semantics at `loss = 0`: positive gain gives
`rs = +inf` hence rsi exactly 100; zero gain gives `rs = NaN` hence a NaN cell
(`none`). -/
def rsiLast (xs : List ℚ) (window : ℕ := 14) : Option ℚ :=
  match avgGain xs window, avgLoss xs window with
  | some g, some l =>
      if l = 0 then (if 0 < g then some 100 else none)
      else some (100 - 100 / (1 + g / l))
  | _, _ => none

/-- `current_rsi` in `SignalGenerator._calculate_technical_signals`
(signal_service.py lines 178-179): a NaN rsi cell falls back to 50. -/
def currentRsi (closes : List ℚ) : ℚ := (rsiLast closes).getD 50

/-- One step of pandas `ewm(span).mean()` with the default `adjust=True`:
running weighted numerator and denominator with weights `(1-a)^i`. -/
def ewmGo (a : ℚ) : List ℚ → ℚ → ℚ → List ℚ
  | [], _, _ => []
  | x :: rest, num, den =>
      let num' := x + (1 - a) * num
      let den' := 1 + (1 - a) * den
      num' / den' :: ewmGo a rest num' den'

/-- `TechnicalIndicators.ema`: `data.ewm(span=window).mean()`. -/
def ema (xs : List ℚ) (span : ℕ) : List ℚ := ewmGo (2 / (span + 1)) xs 0 0

/-- `macd_line = ema(fast) - ema(slow)` with the default 12/26. -/
def macdLine (xs : List ℚ) : List ℚ := List.zipWith (· - ·) (ema xs 12) (ema xs 26)

/-- `signal_line = ema(macd_line, 9)`. -/
def macdSignalLine (xs : List ℚ) : List ℚ := ema (macdLine xs) 9

/-! ### SupportResistanceCalculator (signal_service.py lines 17-113) -/

/-- `highs.iloc[i] >= highs.iloc[i±j]` for `j = 1..w` (`find_pivot_points`). -/
def isPivotHigh (highs : List ℚ) (w i : ℕ) : Bool :=
  ((List.range w).all fun j => highs.getD (i - (j + 1)) 0 ≤ highs.getD i 0) &&
  ((List.range w).all fun j => highs.getD (i + (j + 1)) 0 ≤ highs.getD i 0)

/-- `lows.iloc[i] <= lows.iloc[i±j]` for `j = 1..w`. -/
def isPivotLow (lows : List ℚ) (w i : ℕ) : Bool :=
  ((List.range w).all fun j => lows.getD i 0 ≤ lows.getD (i - (j + 1)) 0) &&
  ((List.range w).all fun j => lows.getD i 0 ≤ lows.getD (i + (j + 1)) 0)

/-- The pivot highs collected by `find_pivot_points` over
`i ∈ range(w, len - w)`. -/
def findPivotHighs (highs : List ℚ) (w : ℕ) : List ℚ :=
  (List.range' w (highs.length - 2 * w)).filterMap fun i =>
    if isPivotHigh highs w i then some (highs.getD i 0) else none

/-- The pivot lows collected by `find_pivot_points`. -/
def findPivotLows (lows : List ℚ) (w : ℕ) : List ℚ :=
  (List.range' w (lows.length - 2 * w)).filterMap fun i =>
    if isPivotLow lows w i then some (lows.getD i 0) else none

/-- The grouping test of `_cluster_levels`:
`abs(level - current_cluster[-1]) / current_cluster[-1] <= tolerance`.
The floats make `x/0` equal `±inf` (or `NaN` for `0/0`), which never satisfies
`<=`; hence the explicit `last ≠ 0` guard. -/
def clusterCond (tol level last : ℚ) : Prop :=
  last ≠ 0 ∧ |level - last| / last ≤ tol

instance (tol level last : ℚ) : Decidable (clusterCond tol level last) :=
  inferInstanceAs (Decidable (_ ∧ _))

/-- The walk of `_cluster_levels`.  `cur` holds the current cluster in reverse,
so `cur.headD 0` is Python's `current_cluster[-1]`; the cluster mean does not
depend on the order.  On exhaustion the final (always nonempty) cluster is
flushed. -/
def clusterGo (tol : ℚ) : List ℚ → List ℚ → List ℚ
  | cur, [] => [listMean cur]
  | cur, l :: ls =>
      if clusterCond tol l (cur.headD 0) then clusterGo tol (l :: cur) ls
      else listMean cur :: clusterGo tol [l] ls

/-- `SupportResistanceCalculator._cluster_levels`: sort ascending, group
consecutive values within the relative tolerance of the cluster's last member,
replace every cluster by its mean. -/
def clusterLevels (levels : List ℚ) (tol : ℚ := 2/100) : List ℚ :=
  match levels.insertionSort (· ≤ ·) with
  | [] => []
  | x :: xs => clusterGo tol [x] xs

/-- The dictionary returned by `calculate_support_resistance`. -/
structure LevelSet where
  support_levels : List ℚ
  resistance_levels : List ℚ
  current_price : ℚ
deriving DecidableEq, Repr

/-- The final resistance selection (line 78): keep candidates strictly above
the current price, ascending, first 3. -/
def selectResistance (cands : List ℚ) (cp : ℚ) : List ℚ :=
  ((cands.filter fun l => cp < l).insertionSort (· ≤ ·)).take 3

/-- The final support selection (line 79): keep candidates strictly below the
current price, descending (nearest first), first 3. -/
def selectSupport (cands : List ℚ) (cp : ℚ) : List ℚ :=
  ((cands.filter fun l => l < cp).insertionSort (· ≥ ·)).take 3

/-- `SupportResistanceCalculator.calculate_support_resistance`.  For an empty
series `closes.iloc[-1]` raises and the `except` branch returns empty level
sets with price 0; otherwise no exception can occur. -/
def calculateSupportResistance (bars : List Bar) (lookback : ℕ := 50) : LevelSet :=
  if bars = [] then ⟨[], [], 0⟩
  else
    let recent := lastN (min lookback bars.length) bars
    let highs := recent.map (·.high_price)
    let lows := recent.map (·.low_price)
    let closes := recent.map (·.close_price)
    let resistance0 := clusterLevels (findPivotHighs highs 5)
    let support0 := clusterLevels (findPivotLows lows 5)
    let cp := closes.getLastD 0
    let ma20 := (rollingMeanLast 20 closes).getD cp
    let ma50 := (rollingMeanLast 50 closes).getD cp
    let resistance1 := if cp < ma20 then resistance0 ++ [ma20] else resistance0
    let support1 := if cp < ma20 then support0 else support0 ++ [ma20]
    let resistance2 := if cp < ma50 then resistance1 ++ [ma50] else resistance1
    let support2 := if cp < ma50 then support1 else support1 ++ [ma50]
    ⟨selectSupport support2 cp, selectResistance resistance2 cp, cp⟩

/-! ### SignalGenerator (signal_service.py lines 116-478) -/

/-- One per-indicator entry pair `{t}_signal` / `{t}_strength` of the signals
dictionary. -/
structure Vote where
  dir : SignalType
  strength : ℚ
deriving DecidableEq, Repr

/-- The signals dictionary built by `_calculate_technical_signals` (plus the
`ml_*` keys merged in by `_incorporate_ml_signals`).  A `none` slot is an
absent key.  `mlConfidence` is `signals.get('ml_confidence', 0)`. -/
structure Signals where
  rsi : Option Vote
  macd : Option Vote
  ma : Option Vote
  bb : Option Vote
  ml : Option Vote
  volume_confirmation : Bool
  volume_strength : ℚ
  mlConfidence : ℚ
deriving DecidableEq, Repr

/-- The empty dictionary: what the `except` branch returns when the first
indicator access already raised (only reachable on an empty frame). -/
def emptySignals : Signals := ⟨none, none, none, none, none, false, 0, 0⟩

/-- The RSI vote (signal_service.py lines 177-189). -/
def rsiVote (closes : List ℚ) : Vote :=
  let r := currentRsi closes
  if 70 < r then ⟨.SELL, min 1 ((r - 70) / 30)⟩
  else if r < 30 then ⟨.BUY, min 1 ((30 - r) / 30)⟩
  else ⟨.HOLD, 0⟩

/-- The MACD vote (lines 191-201).  The `iloc[-1]` NaN guards default to 0;
for a nonempty frame `ewm` never yields NaN, so `getLastD 0` only supplies the
default on an empty list. -/
def macdVote (closes : List ℚ) : Vote :=
  let m := (macdLine closes).getLastD 0
  let sg := (macdSignalLine closes).getLastD 0
  if sg < m then ⟨.BUY, min 1 (if sg = 0 then 1/2 else |m - sg| / |sg|)⟩
  else ⟨.SELL, min 1 (if sg = 0 then 1/2 else |sg - m| / |sg|)⟩

/-- The moving-average vote (lines 203-217): absent (`none`) unless both the
20- and the 50-bar SMA cells are non-NaN.  The `sma20 = 0` guard reproduces
float division: a positive numerator over `0.0` is `+inf`, so the `min` picks
1 (the numerator is positive in each branch). -/
def maVote (closes : List ℚ) : Option Vote :=
  match rollingMeanLast 20 closes, rollingMeanLast 50 closes with
  | some s20, some s50 =>
      let p := closes.getLastD 0
      if s50 < s20 ∧ s20 < p then
        some ⟨.BUY, if s20 = 0 then 1 else min 1 ((p - s20) / s20)⟩
      else if s20 < s50 ∧ p < s20 then
        some ⟨.SELL, if s20 = 0 then 1 else min 1 ((s20 - p) / s20)⟩
      else some ⟨.HOLD, 0⟩
  | _, _ => none

/-- The volume block (lines 235-244): confirmation flag and strength.  A NaN
20-bar volume SMA fails the `>` comparison, leaving `(false, 0)`; a zero SMA
with positive current volume gives `+inf`, so the strength `min` picks 1. -/
def volumeBlock (vols : List ℚ) : Bool × ℚ :=
  match rollingMeanLast 20 vols with
  | some vs =>
      let cv := vols.getLastD 0
      if vs * (3/2) < cv then
        (true, if vs = 0 then 1 else min 1 (cv / vs - 1))
      else (false, 0)
  | none => (false, 0)

/-- The externally supplied prediction dictionary read by
`_incorporate_ml_signals` (`predicted_price`, `confidence_score`). -/
structure MLPred where
  predicted_price : ℚ
  confidence_score : ℚ
deriving DecidableEq, Repr

/-- `SignalGenerator._incorporate_ml_signals` (lines 251-279): returns the
`ml` vote and the recorded confidence, or nothing when the prediction is not
positive-and-confident.  At `cp = 0` the float percentage move is `+inf`
(the predicted price is positive in this branch), giving a BUY of strength 1. -/
def incorporateMl (cp : ℚ) (p : MLPred) : Option (Vote × ℚ) :=
  if 0 < p.predicted_price ∧ 1/2 < p.confidence_score then
    if cp = 0 then some (⟨.BUY, 1⟩, p.confidence_score)
    else
      let pct := (p.predicted_price - cp) / cp
      if 2/100 < pct then
        some (⟨.BUY, min 1 (p.confidence_score * |pct| * 10)⟩, p.confidence_score)
      else if pct < -(2/100) then
        some (⟨.SELL, min 1 (p.confidence_score * |pct| * 10)⟩, p.confidence_score)
      else some (⟨.HOLD, 0⟩, p.confidence_score)
  else none

/-- `_calculate_technical_signals` over the sorted frame.  The Bollinger vote
is a parameter: its strengths divide by `sma ± 2·std`, and the rolling standard
deviation is a real-valued square root with no exact rational representative —
every theorem quantifies over this slot.  On an empty frame the first
`iloc[-1]` raises and the handler returns the still-empty dictionary. -/
def calcTechnicalSignals (bbVote : Option Vote) (bars : List Bar) : Signals :=
  if bars = [] then emptySignals
  else
    let closes := bars.map (·.close_price)
    let vols := bars.map (·.volume)
    let vb := volumeBlock vols
    { rsi := some (rsiVote closes)
      macd := some (macdVote closes)
      ma := maVote closes
      bb := bbVote
      ml := none
      volume_confirmation := vb.1
      volume_strength := vb.2
      mlConfidence := 0 }

/-- `signals.update(self._incorporate_ml_signals(df, ml_prediction))` in
`generate_signals` (line 153-154), executed only when a prediction was given. -/
def buildSignals (bbVote : Option Vote) (bars : List Bar) (mlPred : Option MLPred) :
    Signals :=
  let s := calcTechnicalSignals bbVote bars
  match mlPred with
  | none => s
  | some p =>
      if bars = [] then s
      else
        match incorporateMl ((bars.map (·.close_price)).getLastD 0) p with
        | none => s
        | some (v, conf) => { s with ml := some v, mlConfidence := conf }

/-- Weighted contribution of one indicator slot to one side of the fusion
(the loop of `_generate_final_signal`, lines 303-316): only a matching
directional vote contributes `weight * strength`. -/
def contrib (w : ℚ) (v : Option Vote) (d : SignalType) : ℚ :=
  match v with
  | some vt => if vt.dir = d then w * vt.strength else 0
  | none => 0

/-- `total_buy_strength` before the volume boost, with the fixed weight table
rsi 0.2, macd 0.25, ma 0.2, bb 0.15, ml 0.2. -/
def buyTotalRaw (s : Signals) : ℚ :=
  contrib (2/10) s.rsi .BUY + contrib (25/100) s.macd .BUY + contrib (2/10) s.ma .BUY +
    contrib (15/100) s.bb .BUY + contrib (2/10) s.ml .BUY

/-- `total_sell_strength` before the volume boost. -/
def sellTotalRaw (s : Signals) : ℚ :=
  contrib (2/10) s.rsi .SELL + contrib (25/100) s.macd .SELL + contrib (2/10) s.ma .SELL +
    contrib (15/100) s.bb .SELL + contrib (2/10) s.ml .SELL

/-- The totals after the volume-confirmation boost (lines 322-328):
`0.1 × volume_strength` is added to whichever side is currently larger
(ties boost the sell side, per the `else`). -/
def boostedTotals (s : Signals) : ℚ × ℚ :=
  let b := buyTotalRaw s
  let l := sellTotalRaw s
  if s.volume_confirmation then
    let boost := s.volume_strength * (1/10)
    if l < b then (b + boost, l) else (b, l + boost)
  else (b, l)

/-- The decision rule of `_generate_final_signal` (lines 330-339). -/
def fuseDecision (b l : ℚ) : SignalType × ℚ :=
  if l < b ∧ 3/10 < b then (.BUY, min 1 b)
  else if b < l ∧ 3/10 < l then (.SELL, min 1 l)
  else (.HOLD, 0)

/-- `SignalGenerator._calculate_price_targets` (lines 372-425). -/
def calculatePriceTargets (cp : ℚ) (st : SignalType) (sr : LevelSet) (strength : ℚ) :
    Option ℚ × Option ℚ :=
  match st with
  | .HOLD => (none, none)
  | .BUY =>
      let target := match sr.resistance_levels with
        | t :: _ => t
        | [] => cp * (1 + (1/100 + strength * (4/100)))
      let stop := match sr.support_levels with
        | s :: _ => s
        | [] => cp * (1 - (2/100 + strength * (3/100)))
      (some (round2 target), some (round2 stop))
  | .SELL =>
      let target := match sr.support_levels with
        | s :: _ => s
        | [] => cp * (1 - (1/100 + strength * (4/100)))
      let stop := match sr.resistance_levels with
        | t :: _ => t
        | [] => cp * (1 + (2/100 + strength * (3/100)))
      (some (round2 target), some (round2 stop))

/-- The strength qualifier of `_generate_reasoning` (lines 465-470). -/
def strengthDesc (strength : ℚ) : String :=
  if 7/10 < strength then "Strong"
  else if 4/10 < strength then "Moderate"
  else "Weak"

/-- `SignalGenerator._generate_reasoning` (lines 427-478): one clause per
indicator whose vote string equals `signal_type.value`, then the volume
clause, a mixed-signals fallback, the strength qualifier prefix, and the
500-character truncation. -/
def generateReasoning (s : Signals) (st : SignalType) (strength : ℚ) : String :=
  let reasons : List String :=
    (match s.rsi with
     | some v =>
         if v.dir = st then
           [(if st = .BUY then "RSI indicates oversold conditions (strength: "
             else "RSI indicates overbought conditions (strength: ") ++
              formatFixed 2 v.strength ++ ")"]
         else []
     | none => []) ++
    (match s.macd with
     | some v =>
         if v.dir = st then
           [if st = .BUY then "MACD shows bullish momentum" else "MACD shows bearish momentum"]
         else []
     | none => []) ++
    (match s.ma with
     | some v => if v.dir = st then ["Moving averages support the trend"] else []
     | none => []) ++
    (match s.bb with
     | some v => if v.dir = st then ["Bollinger Bands indicate potential reversal"] else []
     | none => []) ++
    (match s.ml with
     | some v =>
         if v.dir = st then
           ["ML model predicts favorable price movement (confidence: " ++
              formatFixed 2 s.mlConfidence ++ ")"]
         else []
     | none => []) ++
    (if s.volume_confirmation then ["High volume confirms the signal"] else [])
  let reasons := if reasons = [] then ["Mixed signals suggest holding position"] else reasons
  (strengthDesc strength ++ " " ++ st.lowerValue ++ " signal. " ++
    String.intercalate "; " reasons).take 500

/-- The decision dictionary flowing out of `generate_signals`.  The keys added
later (`support_levels`/`resistance_levels`/`current_price` by the
`update(sr_levels)`, `recommended_position_size` and the risk-reward ratio by
`RiskManager`) are optional or defaulted until set. -/
structure Decision where
  signal_type : SignalType
  strength : ℚ
  price_target : Option ℚ
  stop_loss : Option ℚ
  reasoning : String
  buy_strength : ℚ
  sell_strength : ℚ
  support_levels : List ℚ
  resistance_levels : List ℚ
  current_price : ℚ
  recommended_position_size : Option ℚ
  riskReward : Option ℚ
deriving DecidableEq, Repr

/-- `SignalGenerator._generate_final_signal` (lines 281-360).  The caller
guarantees a nonempty frame, so the `except` fallback is unreachable. -/
def generateFinalSignal (s : Signals) (sr : LevelSet) (closes : List ℚ) : Decision :=
  let cp := closes.getLastD 0
  let t := boostedTotals s
  let d := fuseDecision t.1 t.2
  let targets := calculatePriceTargets cp d.1 sr d.2
  { signal_type := d.1
    strength := round3 d.2
    price_target := targets.1
    stop_loss := targets.2
    reasoning := generateReasoning s d.1 d.2
    buy_strength := round3 t.1
    sell_strength := round3 t.2
    support_levels := []
    resistance_levels := []
    current_price := 0
    recommended_position_size := none
    riskReward := none }

/-- `SignalGenerator.generate_signals` (lines 123-170): the 20-record guard
raises `ValueError`, the frame is sorted by timestamp, support/resistance are
computed on the raw record list, and the level set is merged into the final
dictionary.  The Bollinger vote is a parameter (see `calcTechnicalSignals`).
`generateSignalsOk` is the success branch (lines 134-166); `generateSignals`
adds the 20-record guard (lines 131-132). -/
def generateSignalsOk (bars : List Bar) (mlPred : Option MLPred) (bbVote : Option Vote) :
    Decision :=
  let df := bars.insertionSort (fun a b => a.timestamp ≤ b.timestamp)
  let signals := buildSignals bbVote df mlPred
  let srLevels := calculateSupportResistance bars
  let d := generateFinalSignal signals srLevels (df.map (·.close_price))
  { d with support_levels := srLevels.support_levels,
           resistance_levels := srLevels.resistance_levels,
           current_price := srLevels.current_price }

def generateSignals (bars : List Bar) (mlPred : Option MLPred) (bbVote : Option Vote) :
    Except String Decision :=
  if bars.length < 20 then .error ("Insufficient data for signal generation")
  else .ok (generateSignalsOk bars mlPred bbVote)

/-! ### RiskManager (signal_service.py lines 481-543) -/

/-- Placeholder record for `getLastD` (never read on the paths the theorems
take: the empty-series case is handled separately). -/
def defaultBar : Bar := ⟨0, 0, 0, 0, 0, 0⟩

/-- Step 1 of `apply_risk_filters` (lines 495-504), gated on 20 records.
`vol` is a parameter standing for `np.std(last 20 closes)/np.mean(...)` — a
real-valued square root with no exact rational representative; every theorem
quantifies over it. -/
def volAdjust (d : Decision) (nbars : ℕ) (vol : ℚ) : Decision :=
  if 20 ≤ nbars ∧ 5/100 < vol then
    { d with strength := d.strength * max (1/2) (1 - (vol - 5/100) * 5),
             reasoning := d.reasoning ++ " (Adjusted for high volatility: " ++
               formatFixed 3 vol ++ ")" }
  else d

/-- Step 2 (lines 506-508): position sizing with `max_position_size = 0.1`. -/
def positionStep (d : Decision) : Decision :=
  { d with recommended_position_size := some (round3 (min (1/10) (d.strength * (1/10)))) }

/-- Step 3 (lines 510-530): the risk-reward gate.  Python's
`if price_target and stop_loss:` is a truthiness test, so a present but zero
target or stop skips the whole block.  The gain/loss orientation follows the
BUY branch versus the `else` (SELL or anything else). -/
def rrStep (d : Decision) (cp : ℚ) : Decision :=
  match d.price_target, d.stop_loss with
  | some pt, some sl =>
      if pt ≠ 0 ∧ sl ≠ 0 then
        let gl := if d.signal_type = .BUY then (pt - cp, cp - sl) else (cp - pt, sl - cp)
        if 0 < gl.2 then
          let rr := gl.1 / gl.2
          let d' := { d with riskReward := some (round2 rr) }
          if rr < 3/2 then
            { d' with strength := d'.strength * (1/2),
                      reasoning := d'.reasoning ++ " (Poor risk-reward ratio: " ++
                        formatFixed 2 rr ++ ")" }
          else d'
        else d
      else d
  | _, _ => d

/-- Step 4 (lines 532-536): the final strength veto. -/
def clampStep (d : Decision) : Decision :=
  if d.strength < 2/10 then
    { d with signal_type := .HOLD, strength := 0,
             reasoning := "Signal filtered out due to risk management rules" }
  else d

/-- The strength flowing into the final veto: the result of steps 1-3. -/
def preClamp (d : Decision) (bars : List Bar) (vol : ℚ) : Decision :=
  rrStep (positionStep (volAdjust d bars.length vol)) (bars.getLastD defaultBar).close_price

/-- `RiskManager.apply_risk_filters`.  On an empty record list
`market_data[-1]` raises and the `except` branch returns the *original*
signal dictionary untouched; otherwise no exception can occur. -/
def applyRiskFilters (d : Decision) (bars : List Bar) (vol : ℚ) : Decision :=
  match bars with
  | [] => d
  | _ => clampStep (preClamp d bars vol)

/-! ### MLService ensemble blending (ml_service.py lines 295-312) -/

/-- The ensemble step of `MLService.generate_prediction`: the per-model
estimates are (price, confidence) pairs.  Non-empty: confidence-weighted
average price and `min(0.95, mean confidence)`.  Empty: the trend fallback on
the last 5 closes.  Exact-rational caveat: a zero first-of-window close (or a
zero total weight) makes the float code produce `inf`/`NaN` values, which have
no rational representative — theorems about the fallback assume that close is
nonzero. -/
def blendPredictions (estimates : List (ℚ × ℚ)) (closes : List ℚ) : ℚ × ℚ :=
  let cp := closes.getLastD 0
  match estimates with
  | [] =>
      let recent := lastN 5 closes
      let trend := (recent.getLastD 0 - recent.headD 0) / recent.headD 0
      (cp * (1 + trend * (1/10)), 3/10)
  | _ =>
      let totalWeight := (estimates.map (·.2)).sum
      let ensemble := (estimates.map fun e => e.1 * e.2 / totalWeight).sum
      (ensemble, min (95/100) ((estimates.map (·.2)).sum / estimates.length))

/-- The rounded fields `predicted_price`/`confidence_score` of the result
dictionary (lines 314-317). -/
def predictionResult (estimates : List (ℚ × ℚ)) (closes : List ℚ) : ℚ × ℚ :=
  let e := blendPredictions estimates closes
  (round2 e.1, round3 e.2)

/-! ### Concrete inputs used by witnesses and counterexamples -/

/-- A 20-record constant series. -/
def flatBars : List Bar := (List.range 20).map fun i => ⟨i, 100, 100, 100, 100, 1000⟩

/-- A 5-record series (too short for `generate_signals`). -/
def shortBars : List Bar := (List.range 5).map fun i => ⟨i, 100, 100, 100, 100, 1000⟩

/-- A fallback decision for `Option.getD` (never selected). -/
def holdDecision : Decision := ⟨.HOLD, 0, none, none, "", 0, 0, [], [], 0, none, none⟩

/-- The decision `generate_signals` produces on `flatBars`. -/
def flatDecision : Decision :=
  (generateSignals flatBars none none).toOption.getD holdDecision

/-- A signals dictionary with weighted BUY total 0.25 (rsi 0.2·1 + bb 0.15·⅓)
and SELL total 0.1 (macd 0.25·0.4), no volume confirmation. -/
def quarterSignals : Signals :=
  ⟨some ⟨.BUY, 1⟩, some ⟨.SELL, 2/5⟩, none, some ⟨.BUY, 1/3⟩, none, false, 0, 0⟩

/-- A BUY decision with target 102 and stop 98 (risk-reward ratio 1 at price
100) and strength 0.3. -/
def weakBuyDecision : Decision :=
  ⟨.BUY, 3/10, some 102, some 98, "base reasoning", 3/10, 0, [], [], 100, none, none⟩

/-- As `weakBuyDecision` but with strength 0.6, so halving survives the veto. -/
def strongBuyDecision : Decision :=
  ⟨.BUY, 6/10, some 102, some 98, "base reasoning", 6/10, 0, [], [], 100, none, none⟩

/-- A strictly increasing 15-close series: no losses ever recorded. -/
def risingCloses : List ℚ := (List.range 15).map fun i => (i : ℚ) + 1

/-! ## Theorems -/

theorem roundHalfEven_bounds (q : ℚ) :
    ⌊q⌋ ≤ roundHalfEven q ∧ roundHalfEven q ≤ ⌈q⌉ := by
  have hceil : q - ⌊q⌋ > 0 → ⌊q⌋ + 1 ≤ ⌈q⌉ := by
    intro h
    have : (⌊q⌋ : ℚ) < q := by linarith
    exact Int.lt_ceil.mpr this
  unfold roundHalfEven
  split_ifs with h1 h2 h3
  · exact ⟨le_refl _, Int.floor_le_ceil q⟩
  · exact ⟨by omega, hceil (by linarith)⟩
  · exact ⟨le_refl _, Int.floor_le_ceil q⟩
  · have hne : q - ⌊q⌋ > 0 := by
      rcases lt_trichotomy (q - ⌊q⌋) (1/2) with h | h | h
      · exact absurd h h1
      · rw [h]; norm_num
      · exact absurd h h2
    exact ⟨by omega, hceil hne⟩

theorem round3_mem (x : ℚ) (h0 : 0 ≤ x) (h1 : x ≤ 1) :
    0 ≤ round3 x ∧ round3 x ≤ 1 := by
  obtain ⟨hlo, hhi⟩ := roundHalfEven_bounds (x * 1000)
  have hfl : (0 : ℤ) ≤ ⌊x * 1000⌋ := Int.floor_nonneg.mpr (by positivity)
  have hcl : ⌈x * 1000⌉ ≤ (1000 : ℤ) := Int.ceil_le.mpr (by push_cast; linarith)
  have hge : (0 : ℤ) ≤ roundHalfEven (x * 1000) := le_trans hfl hlo
  have hle : roundHalfEven (x * 1000) ≤ (1000 : ℤ) := le_trans hhi hcl
  constructor
  · unfold round3
    positivity
  · unfold round3
    rw [div_le_one (by norm_num)]
    exact_mod_cast hle

theorem fuseDecision_strength_mem (b l : ℚ) :
    0 ≤ (fuseDecision b l).2 ∧ (fuseDecision b l).2 ≤ 1 := by
  unfold fuseDecision
  split_ifs with h1 h2
  · exact ⟨le_min (by norm_num) (by linarith [h1.2]), min_le_left _ _⟩
  · exact ⟨le_min (by norm_num) (by linarith [h2.2]), min_le_left _ _⟩
  · norm_num

theorem generateFinalSignal_strength_mem (s : Signals) (sr : LevelSet) (closes : List ℚ) :
    0 ≤ (generateFinalSignal s sr closes).strength ∧
      (generateFinalSignal s sr closes).strength ≤ 1 := by
  have h := fuseDecision_strength_mem (boostedTotals s).1 (boostedTotals s).2
  exact round3_mem _ h.1 h.2

theorem volAdjust_strength_mem (d : Decision) (n : ℕ) (vol : ℚ)
    (h0 : 0 ≤ d.strength) (h1 : d.strength ≤ 1) :
    0 ≤ (volAdjust d n vol).strength ∧ (volAdjust d n vol).strength ≤ 1 := by
  unfold volAdjust
  split_ifs with h
  · have hf0 : (0 : ℚ) ≤ max (1/2) (1 - (vol - 5/100) * 5) :=
      le_trans (by norm_num) (le_max_left _ _)
    have hf1 : max (1/2) (1 - (vol - 5/100) * 5) ≤ 1 :=
      max_le (by norm_num) (by nlinarith [h.2])
    exact ⟨mul_nonneg h0 hf0, mul_le_one₀ h1 hf0 hf1⟩
  · exact ⟨h0, h1⟩

theorem rrStep_strength_mem (d : Decision) (cp : ℚ)
    (h0 : 0 ≤ d.strength) (h1 : d.strength ≤ 1) :
    0 ≤ (rrStep d cp).strength ∧ (rrStep d cp).strength ≤ 1 := by
  unfold rrStep
  rcases d.price_target with _ | pt <;> rcases d.stop_loss with _ | sl <;>
    simp only [] <;> try exact ⟨h0, h1⟩
  split_ifs <;>
    first
      | exact ⟨h0, h1⟩
      | exact ⟨mul_nonneg h0 (by norm_num), mul_le_one₀ h1 (by norm_num) (by norm_num)⟩

theorem clampStep_strength_mem (d : Decision)
    (h0 : 0 ≤ d.strength) (h1 : d.strength ≤ 1) :
    0 ≤ (clampStep d).strength ∧ (clampStep d).strength ≤ 1 := by
  unfold clampStep
  split_ifs
  · norm_num
  · exact ⟨h0, h1⟩

theorem applyRiskFilters_strength_mem (d : Decision) (bars : List Bar) (vol : ℚ)
    (h0 : 0 ≤ d.strength) (h1 : d.strength ≤ 1) :
    0 ≤ (applyRiskFilters d bars vol).strength ∧
      (applyRiskFilters d bars vol).strength ≤ 1 := by
  unfold applyRiskFilters preClamp
  cases bars with
  | nil => exact ⟨h0, h1⟩
  | cons b bs =>
      have hv := volAdjust_strength_mem d (b :: bs).length vol h0 h1
      have hp : (positionStep (volAdjust d (b :: bs).length vol)).strength =
          (volAdjust d (b :: bs).length vol).strength := rfl
      have hr := rrStep_strength_mem (positionStep (volAdjust d (b :: bs).length vol))
        ((b :: bs).getLastD defaultBar).close_price (hp ▸ hv.1) (hp ▸ hv.2)
      exact clampStep_strength_mem _ hr.1 hr.2

/-- C1: for every record list (of at least 20 bars, which is exactly when
`generate_signals` returns a decision), every optional prediction, every
Bollinger vote and every measured volatility, the returned `strength` and the
strength after `apply_risk_filters` lie in `[0, 1]`. -/
theorem strength_unit_interval (bars : List Bar) (mlPred : Option MLPred)
    (bbVote : Option Vote) (vol : ℚ) (d : Decision)
    (hok : generateSignals bars mlPred bbVote = .ok d) :
    (0 ≤ d.strength ∧ d.strength ≤ 1) ∧
      (0 ≤ (applyRiskFilters d bars vol).strength ∧
        (applyRiskFilters d bars vol).strength ≤ 1) := by
  unfold generateSignals at hok
  split_ifs at hok with hlen
  have hd : generateSignalsOk bars mlPred bbVote = d := by
    exact Except.ok.inj hok
  have hstrength : d.strength =
      (generateFinalSignal
        (buildSignals bbVote (bars.insertionSort fun a b => a.timestamp ≤ b.timestamp) mlPred)
        (calculateSupportResistance bars)
        ((bars.insertionSort fun a b => a.timestamp ≤ b.timestamp).map
          (·.close_price))).strength := by
    rw [← hd]; rfl
  have hmem := generateFinalSignal_strength_mem
    (buildSignals bbVote (bars.insertionSort fun a b => a.timestamp ≤ b.timestamp) mlPred)
    (calculateSupportResistance bars)
    ((bars.insertionSort fun a b => a.timestamp ≤ b.timestamp).map (·.close_price))
  rw [← hstrength] at hmem
  exact ⟨hmem, applyRiskFilters_strength_mem d bars vol hmem.1 hmem.2⟩

theorem strength_unit_interval_witness :
    generateSignals flatBars none none = Except.ok flatDecision ∧
      (0 ≤ flatDecision.strength ∧ flatDecision.strength ≤ 1) ∧
      (0 ≤ (applyRiskFilters flatDecision flatBars 0).strength ∧
        (applyRiskFilters flatDecision flatBars 0).strength ≤ 1) :=
  have h : generateSignals flatBars none none = Except.ok flatDecision := by
    with_unfolding_all rfl
  ⟨h, strength_unit_interval flatBars none none 0 flatDecision h⟩

/-- C2: over every signals snapshot, the fused decision is BUY with strength
`min 1 buy_total` exactly when the boosted buy total beats the sell total and
exceeds the 0.3 floor, symmetrically for SELL, and HOLD with strength 0
otherwise; concretely, buy total 0.25 against sell total 0.1 with no volume
boost yields HOLD with strength 0. -/
theorem fusion_decision_rule (s : Signals) :
    (fuseDecision (boostedTotals s).1 (boostedTotals s).2 =
        (.BUY, min 1 (boostedTotals s).1) ↔
      ((boostedTotals s).2 < (boostedTotals s).1 ∧ 3/10 < (boostedTotals s).1)) ∧
    (fuseDecision (boostedTotals s).1 (boostedTotals s).2 =
        (.SELL, min 1 (boostedTotals s).2) ↔
      ((boostedTotals s).1 < (boostedTotals s).2 ∧ 3/10 < (boostedTotals s).2)) ∧
    (fuseDecision (boostedTotals s).1 (boostedTotals s).2 = (.HOLD, 0) ↔
      (¬((boostedTotals s).2 < (boostedTotals s).1 ∧ 3/10 < (boostedTotals s).1) ∧
       ¬((boostedTotals s).1 < (boostedTotals s).2 ∧ 3/10 < (boostedTotals s).2))) ∧
    (boostedTotals quarterSignals = (1/4, 1/10) ∧
      (generateFinalSignal quarterSignals ⟨[], [], 0⟩ [100]).signal_type = .HOLD ∧
      (generateFinalSignal quarterSignals ⟨[], [], 0⟩ [100]).strength = 0) := by
  refine ⟨?_, ?_, ?_, by with_unfolding_all rfl,
    by with_unfolding_all rfl, by with_unfolding_all rfl⟩ <;>
    unfold fuseDecision <;> split_ifs with h1 h2
  · exact iff_of_true rfl h1
  · exact iff_of_false (by simp [Prod.ext_iff]) h1
  · exact iff_of_false (by simp [Prod.ext_iff]) h1
  · exact iff_of_false (by simp [Prod.ext_iff]) fun hc => absurd hc.1 (lt_asymm h1.1)
  · exact iff_of_true rfl h2
  · exact iff_of_false (by simp [Prod.ext_iff]) h2
  · exact iff_of_false (by simp [Prod.ext_iff]) fun hc => hc.1 h1
  · exact iff_of_false (by simp [Prod.ext_iff]) fun hc => hc.2 h2
  · exact iff_of_true rfl ⟨h1, h2⟩

/-- C7 (counterexample): on a concrete 5-record series `generate_signals`
fails, but the error message contains neither the required count (20) nor the
actual count (5) — contradicting the part of the claim that says the error
includes the required versus actual record counts. -/
theorem insufficient_data_message_lacks_counts :
    generateSignals shortBars none none =
        .error ("Insufficient data for signal generation") ∧
      ¬ ((toString 20).data <:+: "Insufficient data for signal generation".data) ∧
      ¬ ((toString shortBars.length).data <:+:
          "Insufficient data for signal generation".data) :=
  ⟨by with_unfolding_all rfl, by with_unfolding_all decide, by with_unfolding_all decide⟩

/-- C7 (amended): for every series of fewer than 20 records,
`generate_signals` fails with the fixed `ValueError` message
"Insufficient data for signal generation" rather than returning a decision;
the message does not carry the record counts. -/
theorem insufficient_data_error (bars : List Bar) (mlPred : Option MLPred)
    (bbVote : Option Vote) (hlen : bars.length < 20) :
    generateSignals bars mlPred bbVote =
      .error ("Insufficient data for signal generation") := by
  unfold generateSignals
  rw [if_pos hlen]

theorem insufficient_data_error_witness :
    shortBars.length < 20 ∧
      generateSignals shortBars none none =
        .error ("Insufficient data for signal generation") :=
  ⟨by with_unfolding_all decide,
    insufficient_data_error shortBars none none (by with_unfolding_all decide)⟩

/-- C9: whenever the strength after the volatility, position-sizing and
risk-reward steps is below 0.2, `apply_risk_filters` returns HOLD with
strength exactly 0 and a reasoning string that is exactly the risk-management
veto message (the original reasoning is discarded). -/
theorem risk_veto (d : Decision) (bars : List Bar) (vol : ℚ)
    (hne : bars ≠ []) (hlow : (preClamp d bars vol).strength < 2/10) :
    (applyRiskFilters d bars vol).signal_type = .HOLD ∧
      (applyRiskFilters d bars vol).strength = 0 ∧
      (applyRiskFilters d bars vol).reasoning =
        "Signal filtered out due to risk management rules" := by
  cases bars with
  | nil => exact absurd rfl hne
  | cons b bs =>
      have heq : applyRiskFilters d (b :: bs) vol = clampStep (preClamp d (b :: bs) vol) := rfl
      rw [heq]
      unfold clampStep
      rw [if_pos hlow]
      exact ⟨rfl, rfl, rfl⟩

theorem zipWith_nonneg (f : ℚ → ℚ → ℚ) (hf : ∀ a b, 0 ≤ f a b) :
    ∀ as bs : List ℚ, ∀ x ∈ List.zipWith f as bs, 0 ≤ x := by
  intro as
  induction as with
  | nil => simp
  | cons a as ih =>
      intro bs x hx
      cases bs with
      | nil => simp at hx
      | cons b bs =>
          rcases List.mem_cons.mp hx with h | h
          · exact h ▸ hf a b
          · exact ih bs x h

theorem gains_nonneg (xs : List ℚ) : ∀ x ∈ gains xs, 0 ≤ x := by
  intro x hx
  unfold gains at hx
  cases xs with
  | nil => simp at hx
  | cons a rest =>
      rcases List.mem_cons.mp hx with h | h
      · simp [h]
      · refine zipWith_nonneg _ ?_ _ _ x h
        intro u v
        dsimp only
        split_ifs with hc
        · linarith
        · exact le_refl 0

theorem losses_nonneg (xs : List ℚ) : ∀ x ∈ losses xs, 0 ≤ x := by
  intro x hx
  unfold losses at hx
  cases xs with
  | nil => simp at hx
  | cons a rest =>
      rcases List.mem_cons.mp hx with h | h
      · simp [h]
      · refine zipWith_nonneg _ ?_ _ _ x h
        intro u v
        dsimp only
        split_ifs with hc
        · linarith
        · exact le_refl 0

theorem listMean_nonneg (xs : List ℚ) (h : ∀ x ∈ xs, 0 ≤ x) : 0 ≤ listMean xs :=
  div_nonneg (List.sum_nonneg h) (Nat.cast_nonneg _)

theorem rollingMeanLast_nonneg (w : ℕ) (xs : List ℚ) (h : ∀ x ∈ xs, 0 ≤ x) (v : ℚ)
    (hv : rollingMeanLast w xs = some v) : 0 ≤ v := by
  unfold rollingMeanLast at hv
  split_ifs at hv with hw
  have hv' : listMean (lastN w xs) = v := Option.some.inj hv
  rw [← hv']
  exact listMean_nonneg _ fun x hx => h x (List.drop_subset _ _ hx)

theorem gains_replicate (n : ℕ) (c : ℚ) : gains (List.replicate n c) = List.replicate n 0 := by
  cases n with
  | zero => rfl
  | succ m =>
      have hz : List.zipWith (fun a b => if 0 < b - a then b - a else 0)
          (List.replicate (m + 1) c) (List.replicate m c) =
          List.replicate (min (m + 1) m)
            ((fun a b : ℚ => if 0 < b - a then b - a else 0) c c) :=
        List.zipWith_replicate
      simp only [min_eq_right (Nat.le_succ m), sub_self, lt_self_iff_false, if_false] at hz
      unfold gains
      simp only [List.replicate_succ]
      rw [show (c :: List.replicate m c).tail = List.replicate m c from rfl,
        ← List.replicate_succ, hz]

theorem losses_replicate (n : ℕ) (c : ℚ) : losses (List.replicate n c) = List.replicate n 0 := by
  cases n with
  | zero => rfl
  | succ m =>
      have hz : List.zipWith (fun a b => if b - a < 0 then -(b - a) else 0)
          (List.replicate (m + 1) c) (List.replicate m c) =
          List.replicate (min (m + 1) m)
            ((fun a b : ℚ => if b - a < 0 then -(b - a) else 0) c c) :=
        List.zipWith_replicate
      simp only [min_eq_right (Nat.le_succ m), sub_self, lt_self_iff_false, if_false] at hz
      unfold losses
      simp only [List.replicate_succ]
      rw [show (c :: List.replicate m c).tail = List.replicate m c from rfl,
        ← List.replicate_succ, hz]

theorem rollingMeanLast_replicate_zero (w n : ℕ) :
    rollingMeanLast w (List.replicate n (0 : ℚ)) = if w ≤ n then some 0 else none := by
  unfold rollingMeanLast lastN listMean
  simp only [List.length_replicate, List.drop_replicate, List.sum_replicate, smul_zero,
    zero_div]

/-- C3: the RSI read by the signal generator is always defined and in
`[0, 100]`: a zero trailing average loss with positive average gain saturates
it at exactly 100, and a constant series (both averages zero, a NaN ratio in
the raw indicator) falls back to exactly 50. -/
theorem rsi_defined_in_range (closes : List ℚ) :
    (0 ≤ currentRsi closes ∧ currentRsi closes ≤ 100) ∧
      (∀ g : ℚ, avgLoss closes = some 0 → avgGain closes = some g → 0 < g →
        rsiLast closes = some 100 ∧ currentRsi closes = 100) ∧
      (∀ (c : ℚ) (n : ℕ), currentRsi (List.replicate n c) = 50) := by
  refine ⟨?_, ?_, ?_⟩
  · unfold currentRsi rsiLast
    rcases hg : avgGain closes 14 with _ | g <;> rcases hl : avgLoss closes 14 with _ | l <;>
      simp only [Option.getD_some, Option.getD_none] <;> try norm_num
    have hg0 : 0 ≤ g := rollingMeanLast_nonneg 14 (gains closes) (gains_nonneg closes) g hg
    have hl0 : 0 ≤ l := rollingMeanLast_nonneg 14 (losses closes) (losses_nonneg closes) l hl
    split_ifs with h1 h2
    · norm_num
    · norm_num
    · have hlpos : 0 < l := lt_of_le_of_ne hl0 (Ne.symm h1)
      have hrs : 0 ≤ g / l := div_nonneg hg0 hl0
      have hpos : 0 < 1 + g / l := by linarith
      have hle : 100 / (1 + g / l) ≤ 100 := by
        rw [div_le_iff₀ hpos]
        nlinarith
      have hgt : 0 < 100 / (1 + g / l) := by positivity
      simp only [Option.getD_some]
      constructor <;> linarith
  · intro g hl hg hgpos
    unfold currentRsi rsiLast
    rw [hg, hl]
    simp [hgpos]
  · intro c n
    unfold currentRsi rsiLast avgGain avgLoss
    rw [gains_replicate, losses_replicate, rollingMeanLast_replicate_zero 14 n]
    split_ifs <;> simp

theorem rsi_defined_in_range_witness :
    (avgLoss risingCloses = some 0 ∧ avgGain risingCloses = some 1 ∧ (0 : ℚ) < 1) ∧
      rsiLast risingCloses = some 100 ∧ currentRsi risingCloses = 100 ∧
      currentRsi (List.replicate 20 (5 : ℚ)) = 50 :=
  have h := rsi_defined_in_range risingCloses
  ⟨⟨by with_unfolding_all rfl, by with_unfolding_all rfl, by norm_num⟩,
    (h.2.1 1 (by with_unfolding_all rfl) (by with_unfolding_all rfl) (by norm_num)).1,
    (h.2.1 1 (by with_unfolding_all rfl) (by with_unfolding_all rfl) (by norm_num)).2,
    (rsi_defined_in_range []).2.2 5 20⟩

theorem getLast?_drop_of_lt (xs : List ℚ) (n : ℕ) (h : n < xs.length) :
    (xs.drop n).getLast? = xs.getLast? := by
  rw [List.getLast?_eq_getElem?, List.getLast?_eq_getElem?, List.getElem?_drop,
    List.length_drop]
  congr 1
  omega

theorem lastN_getLastD (xs : List ℚ) (n : ℕ) (hne : xs ≠ []) (hn : 0 < n) :
    (lastN n xs).getLastD 0 = xs.getLastD 0 := by
  unfold lastN
  rw [List.getLastD_eq_getLast?, List.getLastD_eq_getLast?, getLast?_drop_of_lt]
  have : 0 < xs.length := List.length_pos.mpr hne
  omega

theorem lastN_headD (xs : List ℚ) (n : ℕ) :
    (lastN n xs).headD 0 = xs.getD (xs.length - n) 0 := by
  unfold lastN
  rw [List.headD_eq_head?, List.head?_drop, List.getD_eq_getElem?_getD]

/-- C6: with no external estimates the blend always succeeds, returning
confidence exactly 0.3 and a price equal to the last close times
`1 + 0.1 × trend`, where the trend is the relative change from the first to
the last of the last 5 closes; on closes 100,101,102,103,104 the trend is
0.04 and the blended price follows the same formula. -/
theorem blend_empty_fallback (closes : List ℚ) (hne : closes ≠ []) :
    (blendPredictions [] closes).2 = 3/10 ∧
      (blendPredictions [] closes).1 =
        closes.getLastD 0 *
          (1 + ((closes.getLastD 0 - closes.getD (closes.length - 5) 0) /
            closes.getD (closes.length - 5) 0) * (1/10)) ∧
      blendPredictions [] [100, 101, 102, 103, 104] =
        (104 * (1 + (((104 : ℚ) - 100) / 100) * (1/10)), 3/10) ∧
      ((104 : ℚ) - 100) / 100 = 4/100 := by
  refine ⟨rfl, ?_, by with_unfolding_all rfl, by norm_num⟩
  have h1 : (lastN 5 closes).getLastD 0 = closes.getLastD 0 :=
    lastN_getLastD closes 5 hne (by norm_num)
  have h2 : (lastN 5 closes).headD 0 = closes.getD (closes.length - 5) 0 :=
    lastN_headD closes 5
  simp only [blendPredictions, h1, h2]

theorem blend_empty_fallback_witness :
    (([100, 101, 102, 103, 104] : List ℚ) ≠ []) ∧
      (blendPredictions [] [100, 101, 102, 103, 104]).2 = 3/10 ∧
      (blendPredictions [] [100, 101, 102, 103, 104]).1 =
        ([100, 101, 102, 103, 104] : List ℚ).getLastD 0 *
          (1 + ((([100, 101, 102, 103, 104] : List ℚ).getLastD 0 -
              ([100, 101, 102, 103, 104] : List ℚ).getD
                (([100, 101, 102, 103, 104] : List ℚ).length - 5) 0) /
            ([100, 101, 102, 103, 104] : List ℚ).getD
              (([100, 101, 102, 103, 104] : List ℚ).length - 5) 0) * (1/10)) :=
  have h := blend_empty_fallback [100, 101, 102, 103, 104] (by with_unfolding_all decide)
  ⟨by with_unfolding_all decide, h.1, h.2.1⟩

theorem volAdjust_fields (d : Decision) (n : ℕ) (vol : ℚ) :
    (volAdjust d n vol).price_target = d.price_target ∧
      (volAdjust d n vol).stop_loss = d.stop_loss ∧
      (volAdjust d n vol).signal_type = d.signal_type := by
  unfold volAdjust
  split_ifs <;> exact ⟨rfl, rfl, rfl⟩

/-- C8 (counterexample): a BUY decision with strength 0.3, target 102 and
stop 98 over a flat 20-bar series at price 100 has risk-reward ratio 1 < 1.5,
yet `apply_risk_filters` does not return half the pre-filter strength (0.15):
the final veto zeroes it, and the poor-ratio note is not in the reasoning. -/
theorem risk_reward_halving_clamped :
    (applyRiskFilters weakBuyDecision flatBars 0).strength ≠
        weakBuyDecision.strength * (1/2) ∧
      ¬ ((" (Poor risk-reward ratio: " ++ formatFixed 2 1 ++ ")").data <:+:
          (applyRiskFilters weakBuyDecision flatBars 0).reasoning.data) :=
  ⟨by with_unfolding_all decide, by with_unfolding_all decide⟩

/-- C8 (amended): for every decision carrying a nonzero price target and
stop-loss whose risk-reward ratio is below 1.5 (with positive potential loss),
`apply_risk_filters` halves the strength exactly relative to its value after
the volatility step (the pre-filter value whenever that step does not fire)
and appends the poor-risk-reward note — provided the halved strength still
clears the 0.2 veto. -/
theorem risk_reward_halving (d : Decision) (bars : List Bar) (vol : ℚ)
    (pt sl gain loss : ℚ)
    (hne : bars ≠ [])
    (hpt : d.price_target = some pt) (hsl : d.stop_loss = some sl)
    (hpt0 : pt ≠ 0) (hsl0 : sl ≠ 0)
    (hgl : (if d.signal_type = .BUY
        then (pt - (bars.getLastD defaultBar).close_price,
              (bars.getLastD defaultBar).close_price - sl)
        else ((bars.getLastD defaultBar).close_price - pt,
              sl - (bars.getLastD defaultBar).close_price)) = (gain, loss))
    (hloss : 0 < loss) (hrr : gain / loss < 3/2)
    (hsurvive : 2/10 ≤ (volAdjust d bars.length vol).strength * (1/2)) :
    (applyRiskFilters d bars vol).strength =
        (volAdjust d bars.length vol).strength * (1/2) ∧
      (" (Poor risk-reward ratio: " ++ formatFixed 2 (gain / loss) ++ ")").data <:+:
        (applyRiskFilters d bars vol).reasoning.data := by
  obtain ⟨b, bs, rfl⟩ : ∃ b bs, bars = b :: bs := by
    cases bars with
    | nil => exact absurd rfl hne
    | cons b bs => exact ⟨b, bs, rfl⟩
  have happly : applyRiskFilters d (b :: bs) vol =
      clampStep (rrStep (positionStep (volAdjust d (b :: bs).length vol))
        ((b :: bs).getLastD defaultBar).close_price) := rfl
  set d1 := volAdjust d (b :: bs).length vol with hd1
  set cp := ((b :: bs).getLastD defaultBar).close_price with hcp
  obtain ⟨hf1, hf2, hf3⟩ := volAdjust_fields d (b :: bs).length vol
  have hrr_eq : rrStep (positionStep d1) cp =
      { positionStep d1 with
          riskReward := some (round2 (gain / loss)),
          strength := (positionStep d1).strength * (1/2),
          reasoning := (positionStep d1).reasoning ++
            " (Poor risk-reward ratio: " ++ formatFixed 2 (gain / loss) ++ ")" } := by
    have hpt1 : (positionStep d1).price_target = some pt := by
      show d1.price_target = some pt
      rw [← hd1] at hf1
      rw [hf1, hpt]
    have hsl1 : (positionStep d1).stop_loss = some sl := by
      show d1.stop_loss = some sl
      rw [← hd1] at hf2
      rw [hf2, hsl]
    have hst1 : (positionStep d1).signal_type = d.signal_type := by
      show d1.signal_type = d.signal_type
      rw [← hd1] at hf3
      rw [hf3]
    unfold rrStep
    rw [hpt1, hsl1, hst1]
    simp only [hgl, if_pos (And.intro hpt0 hsl0), if_pos hloss, if_pos hrr]
    rw [hpt1, hsl1, hst1]
  rw [happly, hrr_eq]
  have hs1 : (positionStep d1).strength = d1.strength := rfl
  unfold clampStep
  rw [hs1]
  rw [if_neg (not_lt.mpr hsurvive)]
  refine ⟨rfl, ?_⟩
  show _ <:+: ((positionStep d1).reasoning ++
      " (Poor risk-reward ratio: " ++ formatFixed 2 (gain / loss) ++ ")").data
  refine ⟨(positionStep d1).reasoning.data, [], ?_⟩
  simp [String.data_append, String.append_assoc]

theorem risk_reward_halving_witness :
    ((flatBars ≠ []) ∧
      strongBuyDecision.price_target = some 102 ∧
      strongBuyDecision.stop_loss = some 98 ∧
      (0 : ℚ) < 2 ∧ (4 : ℚ) / 2 / 2 < 3/2) ∧
    (applyRiskFilters strongBuyDecision flatBars 0).strength =
        (volAdjust strongBuyDecision flatBars.length 0).strength * (1/2) ∧
      (" (Poor risk-reward ratio: " ++ formatFixed 2 ((102 - 100) / (100 - 98) : ℚ) ++
          ")").data <:+:
        (applyRiskFilters strongBuyDecision flatBars 0).reasoning.data :=
  ⟨⟨by with_unfolding_all decide, by with_unfolding_all rfl, by with_unfolding_all rfl,
      by norm_num, by norm_num⟩,
    risk_reward_halving strongBuyDecision flatBars 0 102 98 ((102 : ℚ) - 100) ((100 : ℚ) - 98)
      (by with_unfolding_all decide) (by with_unfolding_all rfl) (by with_unfolding_all rfl)
      (by norm_num) (by norm_num) (by with_unfolding_all decide) (by norm_num) (by norm_num)
      (by with_unfolding_all decide)⟩

theorem risk_veto_witness :
    ([(⟨0, 100, 100, 100, 100, 1000⟩ : Bar)] ≠ ([] : List Bar)) ∧
      (preClamp holdDecision [⟨0, 100, 100, 100, 100, 1000⟩] 0).strength < 2/10 ∧
      (applyRiskFilters holdDecision [⟨0, 100, 100, 100, 100, 1000⟩] 0).signal_type = .HOLD ∧
      (applyRiskFilters holdDecision [⟨0, 100, 100, 100, 100, 1000⟩] 0).strength = 0 ∧
      (applyRiskFilters holdDecision [⟨0, 100, 100, 100, 100, 1000⟩] 0).reasoning =
        "Signal filtered out due to risk management rules" :=
  have h := risk_veto holdDecision [⟨0, 100, 100, 100, 100, 1000⟩] 0
    (by with_unfolding_all decide) (by with_unfolding_all decide)
  ⟨by with_unfolding_all decide, by with_unfolding_all decide, h.1, h.2.1, h.2.2⟩

/-- C10: on a series of at least 20 but fewer than 50 records the
moving-average slot of the signals dictionary is absent (the 50-bar SMA cell
is NaN), and for any snapshot without that slot the fused buy and sell totals
are exactly the weighted sums over the four remaining indicator slots. -/
theorem ma_vote_absent (bb : Option Vote) (bars : List Bar) (mlPred : Option MLPred)
    (h20 : 20 ≤ bars.length) (h50 : bars.length < 50) :
    (buildSignals bb bars mlPred).ma = none ∧
      ∀ s : Signals, s.ma = none →
        buyTotalRaw s = contrib (2/10) s.rsi .BUY + contrib (25/100) s.macd .BUY +
            contrib (15/100) s.bb .BUY + contrib (2/10) s.ml .BUY ∧
          sellTotalRaw s = contrib (2/10) s.rsi .SELL + contrib (25/100) s.macd .SELL +
            contrib (15/100) s.bb .SELL + contrib (2/10) s.ml .SELL := by
  have hne : bars ≠ [] := by
    intro h
    rw [h] at h20
    simp at h20
  constructor
  · have hma : (calcTechnicalSignals bb bars).ma = maVote (bars.map (·.close_price)) := by
      unfold calcTechnicalSignals
      rw [if_neg hne]
    have h50' : rollingMeanLast 50 (bars.map (·.close_price)) = none := by
      unfold rollingMeanLast
      rw [if_neg]
      rw [List.length_map]
      omega
    have hnone : maVote (bars.map (·.close_price)) = none := by
      unfold maVote
      rw [h50']
      cases rollingMeanLast 20 (bars.map (·.close_price)) <;> rfl
    have hbuild : (buildSignals bb bars mlPred).ma = (calcTechnicalSignals bb bars).ma := by
      unfold buildSignals
      cases mlPred with
      | none => rfl
      | some p =>
          dsimp only
          split_ifs
          · rfl
          · cases incorporateMl ((bars.map (·.close_price)).getLastD 0) p with
            | none => rfl
            | some vc => cases vc; rfl
    rw [hbuild, hma, hnone]
  · intro s hsma
    have hb : contrib (2/10) s.ma SignalType.BUY = 0 := by rw [hsma]; rfl
    have hl : contrib (2/10) s.ma SignalType.SELL = 0 := by rw [hsma]; rfl
    unfold buyTotalRaw sellTotalRaw
    rw [hb, hl]
    constructor <;> ring

theorem ma_vote_absent_witness :
    (20 ≤ flatBars.length ∧ flatBars.length < 50) ∧
      (buildSignals none flatBars none).ma = none ∧
      buyTotalRaw quarterSignals =
        contrib (2/10) quarterSignals.rsi .BUY + contrib (25/100) quarterSignals.macd .BUY +
          contrib (15/100) quarterSignals.bb .BUY + contrib (2/10) quarterSignals.ml .BUY :=
  have h := ma_vote_absent none flatBars none (by with_unfolding_all decide)
    (by with_unfolding_all decide)
  ⟨⟨by with_unfolding_all decide, by with_unfolding_all decide⟩, h.1,
    (h.2 quarterSignals (by with_unfolding_all rfl)).1⟩

theorem selectResistance_spec (cands : List ℚ) (cp : ℚ) :
    (∀ x ∈ selectResistance cands cp, cp < x) ∧
      (selectResistance cands cp).length ≤ 3 ∧
      List.Sorted (· ≤ ·) (selectResistance cands cp) := by
  refine ⟨?_, ?_, ?_⟩
  · intro x hx
    have hx' := List.mem_of_mem_take hx
    rw [List.mem_insertionSort] at hx'
    have := List.of_mem_filter hx'
    exact of_decide_eq_true this
  · exact List.length_take_le 3 _
  · exact (List.sorted_insertionSort _ _).sublist (List.take_sublist _ _)

theorem selectSupport_spec (cands : List ℚ) (cp : ℚ) :
    (∀ x ∈ selectSupport cands cp, x < cp) ∧
      (selectSupport cands cp).length ≤ 3 ∧
      List.Sorted (· ≥ ·) (selectSupport cands cp) := by
  refine ⟨?_, ?_, ?_⟩
  · intro x hx
    have hx' := List.mem_of_mem_take hx
    rw [List.mem_insertionSort] at hx'
    have := List.of_mem_filter hx'
    exact of_decide_eq_true this
  · exact List.length_take_le 3 _
  · exact (List.sorted_insertionSort _ _).sublist (List.take_sublist _ _)

theorem calculateSupportResistance_shape (bars : List Bar) (hne : bars ≠ []) :
    ∃ scands rcands cp,
      calculateSupportResistance bars =
        ⟨selectSupport scands cp, selectResistance rcands cp, cp⟩ := by
  unfold calculateSupportResistance
  rw [if_neg hne]
  exact ⟨_, _, _, rfl⟩

/-- C4: for every nonempty record series, `detect_levels` returns at most 3
support levels, all strictly below the current price and in descending order
(nearest first), and at most 3 resistance levels, all strictly above the
current price and in ascending order. -/
theorem detect_levels_invariants (bars : List Bar) (hne : bars ≠ []) :
    (∀ x ∈ (calculateSupportResistance bars).support_levels,
        x < (calculateSupportResistance bars).current_price) ∧
      (∀ x ∈ (calculateSupportResistance bars).resistance_levels,
        (calculateSupportResistance bars).current_price < x) ∧
      (calculateSupportResistance bars).support_levels.length ≤ 3 ∧
      (calculateSupportResistance bars).resistance_levels.length ≤ 3 ∧
      List.Sorted (· ≥ ·) (calculateSupportResistance bars).support_levels ∧
      List.Sorted (· ≤ ·) (calculateSupportResistance bars).resistance_levels := by
  obtain ⟨scands, rcands, cp, h⟩ := calculateSupportResistance_shape bars hne
  rw [h]
  obtain ⟨hs1, hs2, hs3⟩ := selectSupport_spec scands cp
  obtain ⟨hr1, hr2, hr3⟩ := selectResistance_spec rcands cp
  exact ⟨hs1, hr1, hs2, hr2, hs3, hr3⟩

theorem listMean_singleton (x : ℚ) : listMean [x] = x := by
  unfold listMean
  simp

theorem le_listMean (xs : List ℚ) (hne : xs ≠ []) (a : ℚ) (h : ∀ x ∈ xs, a ≤ x) :
    a ≤ listMean xs := by
  have hlen : 0 < (xs.length : ℚ) := by
    have := List.length_pos.mpr hne
    exact_mod_cast this
  have hsum : (xs.length : ℚ) * a ≤ xs.sum := by
    have := List.card_nsmul_le_sum xs a h
    rwa [nsmul_eq_mul] at this
  unfold listMean
  rw [le_div_iff₀ hlen]
  linarith

theorem listMean_le (xs : List ℚ) (hne : xs ≠ []) (b : ℚ) (h : ∀ x ∈ xs, x ≤ b) :
    listMean xs ≤ b := by
  have hlen : 0 < (xs.length : ℚ) := by
    have := List.length_pos.mpr hne
    exact_mod_cast this
  have hsum : xs.sum ≤ (xs.length : ℚ) * b := by
    have := List.sum_le_card_nsmul xs b h
    rwa [nsmul_eq_mul] at this
  unfold listMean
  rw [div_le_iff₀ hlen]
  linarith

theorem listMean_pos (xs : List ℚ) (hne : xs ≠ []) (h : ∀ x ∈ xs, 0 < x) :
    0 < listMean xs := by
  have hlen : 0 < (xs.length : ℚ) := by
    have := List.length_pos.mpr hne
    exact_mod_cast this
  exact div_pos (List.sum_pos xs h hne) hlen

theorem headD_mem (xs : List ℚ) (hne : xs ≠ []) : xs.headD 0 ∈ xs := by
  cases xs with
  | nil => exact absurd rfl hne
  | cons a l => exact List.mem_cons_self a l

theorem clusterGo_ne_nil (tol : ℚ) :
    ∀ (rest cur : List ℚ), clusterGo tol cur rest ≠ [] := by
  intro rest
  induction rest with
  | nil => intro cur; simp [clusterGo]
  | cons l ls ih =>
      intro cur
      unfold clusterGo
      split_ifs
      · exact ih (l :: cur)
      · simp

/-- Structural invariant of the clustering walk on positive sorted input: the
produced means are positive, bounded below by any lower bound of the current
cluster, ascending, and consecutive means never satisfy the grouping test
again. -/
theorem clusterGo_spec (tol : ℚ) (htol : 0 ≤ tol) :
    ∀ (rest cur : List ℚ), cur ≠ [] →
      (∀ x ∈ cur, 0 < x) →
      (∀ x ∈ cur, x ≤ cur.headD 0) →
      (∀ x ∈ rest, 0 < x) →
      List.Sorted (· ≤ ·) rest →
      (∀ x ∈ rest, cur.headD 0 ≤ x) →
      (∀ y ∈ clusterGo tol cur rest, 0 < y) ∧
        (∀ a : ℚ, (∀ x ∈ cur, a ≤ x) → ∀ y ∈ clusterGo tol cur rest, a ≤ y) ∧
        List.Sorted (· ≤ ·) (clusterGo tol cur rest) ∧
        List.Chain' (fun u v => ¬ clusterCond tol v u) (clusterGo tol cur rest) := by
  intro rest
  induction rest with
  | nil =>
      intro cur hne hpos hhead _ _ _
      refine ⟨?_, ?_, ?_, ?_⟩
      · intro y hy
        rw [show clusterGo tol cur [] = [listMean cur] from rfl, List.mem_singleton] at hy
        exact hy ▸ listMean_pos cur hne hpos
      · intro a ha y hy
        rw [show clusterGo tol cur [] = [listMean cur] from rfl, List.mem_singleton] at hy
        exact hy ▸ le_listMean cur hne a ha
      · exact List.sorted_singleton _
      · exact List.chain'_singleton _
  | cons l ls ih =>
      intro cur hne hpos hhead hrpos hrsorted hrge
      have hl_pos : 0 < l := hrpos l (List.mem_cons_self l ls)
      have hls_pos : ∀ x ∈ ls, 0 < x := fun x hx => hrpos x (List.mem_cons_of_mem l hx)
      have hls_sorted : List.Sorted (· ≤ ·) ls := hrsorted.of_cons
      have hl_le : ∀ x ∈ ls, l ≤ x := (List.sorted_cons.mp hrsorted).1
      have hhc_le_l : cur.headD 0 ≤ l := hrge l (List.mem_cons_self l ls)
      have hhc_pos : 0 < cur.headD 0 := hpos _ (headD_mem cur hne)
      show _ ∧ _ ∧ _ ∧ _
      unfold clusterGo
      split_ifs with hcond
      · -- l joins the current cluster
        have hpos' : ∀ x ∈ l :: cur, 0 < x := by
          intro x hx
          rcases List.mem_cons.mp hx with h | h
          · exact h ▸ hl_pos
          · exact hpos x h
        have hhead' : ∀ x ∈ l :: cur, x ≤ (l :: cur).headD 0 := by
          intro x hx
          rcases List.mem_cons.mp hx with h | h
          · exact h ▸ le_refl l
          · exact le_trans (hhead x h) hhc_le_l
        obtain ⟨p1, p2, p3, p4⟩ := ih (l :: cur) (by simp) hpos' hhead'
          hls_pos hls_sorted (fun x hx => hl_le x hx)
        refine ⟨p1, ?_, p3, p4⟩
        intro a ha y hy
        refine p2 a ?_ y hy
        intro x hx
        rcases List.mem_cons.mp hx with h | h
        · exact h ▸ le_trans (ha _ (headD_mem cur hne)) hhc_le_l
        · exact ha x h
      · -- the cluster is flushed; a fresh cluster starts at l
        have hspec := ih [l] (by simp) (by simpa using hl_pos) (by simp)
          hls_pos hls_sorted (by simpa using hl_le)
        obtain ⟨hpos', hlow', hsorted', hchain'⟩ := hspec
        have hmean_pos : 0 < listMean cur := listMean_pos cur hne hpos
        have hmean_le : listMean cur ≤ cur.headD 0 := listMean_le cur hne _ hhead
        have hgap : tol * cur.headD 0 < l - cur.headD 0 := by
          have : ¬ (|l - cur.headD 0| / cur.headD 0 ≤ tol) := by
            intro hle
            exact hcond ⟨ne_of_gt hhc_pos, hle⟩
          rw [not_le, abs_of_nonneg (by linarith)] at this
          rw [lt_div_iff₀ hhc_pos] at this
          linarith
        have hout_ge_l : ∀ y ∈ clusterGo tol [l] ls, l ≤ y :=
          hlow' l (by simp)
        refine ⟨?_, ?_, ?_, ?_⟩
        · intro y hy
          rcases List.mem_cons.mp hy with h | h
          · exact h ▸ hmean_pos
          · exact hpos' y h
        · intro a ha y hy
          have ha_hc : a ≤ cur.headD 0 := ha _ (headD_mem cur hne)
          rcases List.mem_cons.mp hy with h | h
          · exact h ▸ le_listMean cur hne a ha
          · exact hlow' a (by simpa using by linarith : ∀ x ∈ [l], a ≤ x) y h
        · rw [List.sorted_cons]
          refine ⟨fun y hy => ?_, hsorted'⟩
          have := hout_ge_l y hy
          linarith
        · rw [List.chain'_cons']
          refine ⟨fun y0 hy0 => ?_, hchain'⟩
          have hy0mem : y0 ∈ clusterGo tol [l] ls := List.mem_of_mem_head? hy0
          have hy0_ge : l ≤ y0 := hout_ge_l y0 hy0mem
          intro hcond0
          obtain ⟨_, habs⟩ := hcond0
          rw [abs_of_nonneg (by nlinarith)] at habs
          rw [div_le_iff₀ hmean_pos] at habs
          nlinarith

/-- A list whose consecutive members all fail the grouping test re-clusters
to itself. -/
theorem clusterGo_of_chain (tol : ℚ) :
    ∀ (xs : List ℚ) (x : ℚ),
      List.Chain' (fun u v => ¬ clusterCond tol v u) (x :: xs) →
      clusterGo tol [x] xs = x :: xs := by
  intro xs
  induction xs with
  | nil =>
      intro x _
      rw [show clusterGo tol [x] [] = [listMean [x]] from rfl, listMean_singleton]
  | cons y ys ih =>
      intro x hchain
      obtain ⟨hxy, hchain'⟩ := List.chain'_cons.mp hchain
      show clusterGo tol [x] (y :: ys) = x :: y :: ys
      unfold clusterGo
      rw [if_neg (by simpa using hxy)]
      rw [listMean_singleton, ih y hchain']

/-- C5: clustering price levels at the 2% tolerance is idempotent on every
list of (positive) price levels: re-clustering the output returns it
unchanged. -/
theorem cluster_idempotent (levels : List ℚ) (hpos : ∀ l ∈ levels, 0 < l) :
    clusterLevels (clusterLevels levels) = clusterLevels levels := by
  cases hsl : levels.insertionSort (· ≤ ·) with
  | nil =>
      have h1 : clusterLevels levels = [] := by
        unfold clusterLevels
        rw [hsl]
      rw [h1]
      rfl
  | cons x xs =>
      have hsorted : List.Sorted (· ≤ ·) (x :: xs) := hsl ▸ List.sorted_insertionSort _ _
      have hmem : ∀ z ∈ x :: xs, z ∈ levels := by
        intro z hz
        rw [← List.mem_insertionSort (· ≤ ·), hsl]
        exact hz
      have h1 : clusterLevels levels = clusterGo (2/100) [x] xs := by
        unfold clusterLevels
        rw [hsl]
      obtain ⟨_, _, hsorted_out, hchain_out⟩ :=
        clusterGo_spec (2/100) (by norm_num) xs [x] (by simp)
          (by simpa using hpos x (hmem x (List.mem_cons_self x xs)))
          (by simp)
          (fun z hz => hpos z (hmem z (List.mem_cons_of_mem x hz)))
          hsorted.of_cons
          (by simpa using (List.sorted_cons.mp hsorted).1)
      rw [h1]
      cases hout : clusterGo (2/100) [x] xs with
      | nil => exact absurd hout (clusterGo_ne_nil (2/100) xs [x])
      | cons y ys =>
          have hsorted_out' : List.Sorted (· ≤ ·) (y :: ys) := hout ▸ hsorted_out
          have hchain_out' :
              List.Chain' (fun u v => ¬ clusterCond (2/100) v u) (y :: ys) :=
            hout ▸ hchain_out
          unfold clusterLevels
          rw [List.Sorted.insertionSort_eq hsorted_out']
          exact clusterGo_of_chain (2/100) ys y hchain_out'

theorem cluster_idempotent_witness :
    (∀ l ∈ ([100, 101, 150] : List ℚ), 0 < l) ∧
      clusterLevels ([100, 101, 150] : List ℚ) = [201/2, 150] ∧
      clusterLevels (clusterLevels ([100, 101, 150] : List ℚ)) =
        clusterLevels ([100, 101, 150] : List ℚ) :=
  ⟨by with_unfolding_all decide, by with_unfolding_all rfl,
    cluster_idempotent [100, 101, 150] (by with_unfolding_all decide)⟩

theorem detect_levels_invariants_witness :
    (flatBars ≠ []) ∧
      (∀ x ∈ (calculateSupportResistance flatBars).support_levels,
        x < (calculateSupportResistance flatBars).current_price) ∧
      (∀ x ∈ (calculateSupportResistance flatBars).resistance_levels,
        (calculateSupportResistance flatBars).current_price < x) ∧
      (calculateSupportResistance flatBars).support_levels.length ≤ 3 ∧
      (calculateSupportResistance flatBars).resistance_levels.length ≤ 3 :=
  have h := detect_levels_invariants flatBars (by with_unfolding_all decide)
  ⟨by with_unfolding_all decide, h.1, h.2.1, h.2.2.1, h.2.2.2.1⟩

end StockSignals
